import Mathlib

/- Verification of the spend-pulse pace-tracking core.

   Shallow embedding of `src/vault.ts` (ledger merge, cumulative spend curve,
   expected-spend policy, summary compiler) and of the alert-reason block of
   `src/commands/check.ts`.  JavaScript numbers are modelled as exact rationals
   (the usual idealization of IEEE doubles); the ambient clock (`new Date()`)
   is passed in explicitly.  Where the JavaScript semantics of division by
   zero matters (Infinity / NaN), a dedicated `JsNum` type models it. -/

namespace SpendPulse

/-- Separator string used by the `split('-')` calls in the source. -/
def dashSep : String := "-"

/-- The empty string (used to write string constants without a literal
    directly following a name). -/
def emptyStr : String := ""

/-- Embeds the `Transaction` record used by `vault.ts`: `id`, `date`
    (a `YYYY-MM-DD` string), `amount`, `merchant`, `category`, and the two
    optional fields `pending` / `pending_transaction_id` read by
    `addTransactionsToMonthlyData`. -/
structure Transaction where
  id : String
  date : String
  amount : ℚ
  merchant : String
  category : String
  pending : Option Bool := none
  pending_transaction_id : Option String := none
deriving DecidableEq, Repr

/-- Embeds the `MonthlyData` record: `month` (a `YYYY-MM` string),
    `last_sync`, the optional `last_check`, and the transaction list. -/
structure MonthlyData where
  month : String
  last_sync : String
  last_check : Option String := none
  transactions : List Transaction
deriving DecidableEq, Repr

/-- JavaScript truthiness of an optional string field (undefined and the
    empty string are falsy). -/
def strTruthy : Option String → Bool
  | some s => !(s == emptyStr)
  | none => false

/-- JavaScript truthiness of an optional boolean field (undefined is falsy). -/
def boolTruthy : Option Bool → Bool
  | some b => b
  | none => false

/-- `vault.ts` 255-261: the set of `pending_transaction_id`s carried by
    incoming posted transactions (`t.pending_transaction_id && !t.pending`). -/
def pendingIdsToRemove (newTransactions : List Transaction) : List String :=
  (newTransactions.filter fun t =>
    strTruthy t.pending_transaction_id && !(boolTruthy t.pending)).filterMap
    (fun t => t.pending_transaction_id)

/-- `vault.ts` 264: existing ledger entries that survive the supersession
    removal. -/
def existingFiltered (monthlyData : MonthlyData)
    (newTransactions : List Transaction) : List Transaction :=
  monthlyData.transactions.filter fun t =>
    !((pendingIdsToRemove newTransactions).contains t.id)

/-- `vault.ts` 267: ids present after the removal. -/
def filteredIds (monthlyData : MonthlyData)
    (newTransactions : List Transaction) : List String :=
  (existingFiltered monthlyData newTransactions).map (fun t => t.id)

/-- `vault.ts` 270: incoming transactions kept (id not already present). -/
def toAdd (monthlyData : MonthlyData)
    (newTransactions : List Transaction) : List Transaction :=
  newTransactions.filter fun t =>
    !((filteredIds monthlyData newTransactions).contains t.id)

/-- The comparator `(a, b) => b.date.localeCompare(a.date)` of `vault.ts` 278
    as a sort order: `a` may precede `b` when `a.date` is not smaller in the
    lexicographic character order (Lean's `String` order is by definition the
    order of the underlying character lists, compared here directly).
    `Array.prototype.sort` is a stable sort, embedded below by
    `List.mergeSort`. -/
def dateDescLe (a b : Transaction) : Bool := !(decide (a.date.data < b.date.data))

/-- Result record of `addTransactionsToMonthlyData` (`{ added, updated }`). -/
structure MergeResult where
  added : Int
  updated : MonthlyData
deriving DecidableEq, Repr

/-- `vault.ts` 248-283, `addTransactionsToMonthlyData`.  The merge time
    (`new Date().toISOString()`) is the explicit `now` argument. -/
def addTransactionsToMonthlyData (monthlyData : MonthlyData)
    (newTransactions : List Transaction) (now : String) : MergeResult :=
  let ef := existingFiltered monthlyData newTransactions
  let adds := toAdd monthlyData newTransactions
  let updated : MonthlyData :=
    { monthlyData with
      last_sync := now
      transactions := (ef ++ adds).mergeSort dateDescLe }
  let removed : Int :=
    (monthlyData.transactions.length : Int) - (ef.length : Int)
  { added := (adds.length : Int) - removed, updated := updated }

/-- Splitting a character list at a separator character; embeds the
    JavaScript `String.prototype.split` with a one-character separator. -/
def splitOnCharAux (c : Char) : List Char → List Char → List (List Char)
  | [], acc => [acc.reverse]
  | x :: xs, acc =>
    if x == c then acc.reverse :: splitOnCharAux c xs []
    else splitOnCharAux c xs (x :: acc)

/-- `s.split('-')` on the underlying character list. -/
def splitDash (s : String) : List (List Char) := splitOnCharAux '-' s.data []

/-- Parse a non-empty all-digit character list; embeds `parseInt(s, 10)` on
    the well-formed numeric fields of `YYYY-MM-DD` / `YYYY-MM` strings
    (ill-formed fields yield `none`, standing for `NaN`). -/
def parseDecimalNat (cs : List Char) : Option Nat :=
  if cs ≠ [] ∧ cs.all (fun c => c.isDigit) then
    some (cs.foldl (fun n c => n * 10 + (c.toNat - 48)) 0)
  else none

/-- Component `i` of a dash-split string, parsed as a number (`0` for a
    missing or ill-formed component, which the curve walk never reads). -/
def numPart (s : String) (i : Nat) : Nat :=
  (parseDecimalNat ((splitDash s).getD i [])).getD 0

/-- The year component of a `YYYY-MM` month key. -/
def yearOfMonthStr (month : String) : Nat := numPart month 0

/-- The month-number component of a `YYYY-MM` month key. -/
def monthNumOfMonthStr (month : String) : Nat := numPart month 1

/-- `vault.ts` 343: `parseInt(t.date.split('-')[2], 10)`. -/
def dayOfDate (date : String) : Nat := numPart date 2

/-- Gregorian leap-year rule (what `Date` implements). -/
def isLeapYear (y : Nat) : Bool :=
  (y % 4 == 0 && y % 100 != 0) || (y % 400 == 0)

/-- `new Date(year, monthNum, 0).getDate()`: the number of days of calendar
    month `m` (1..12) of year `y`, leap-year aware. -/
def daysInMonthNum (y m : Nat) : Nat :=
  if m == 2 then (if isLeapYear y then 29 else 28)
  else if m == 4 || m == 6 || m == 9 || m == 11 then 30
  else 31

/-- Days of the calendar month named by a `YYYY-MM` key (`vault.ts` 337-338). -/
def daysInMonthOf (month : String) : Nat :=
  daysInMonthNum (yearOfMonthStr month) (monthNumOfMonthStr month)

/-- `vault.ts` 341-345: the day-of-month bucket map; its value at `day` is
    the sum of the amounts of the transactions dated on that day. -/
def dailySpend (monthlyData : MonthlyData) (day : Nat) : ℚ :=
  ((monthlyData.transactions.filter fun t =>
    dayOfDate t.date == day).map (fun t => t.amount)).sum

/-- The running total after the curve walk has processed days `1..d`
    (`vault.ts` 349-351). -/
def runningTotal (monthlyData : MonthlyData) : Nat → ℚ
  | 0 => 0
  | d + 1 => runningTotal monthlyData d + dailySpend monthlyData (d + 1)

/-- Executable floor on rationals (`⌊q⌋`, see `ratFloor_eq_floor`). -/
def ratFloor (q : ℚ) : ℤ := q.num / (q.den : ℤ)

/-- `Math.round(q)` = `⌊q + 1/2⌋` on finite doubles. -/
def jsRound (q : ℚ) : ℤ := ratFloor (q + 1 / 2)

/-- `Math.round(q * 100) / 100` (round to 2 decimal places). -/
def round2 (q : ℚ) : ℚ := (jsRound (q * 100) : ℚ) / 100

/-- `Math.round(q * 10) / 10` (round to 1 decimal place). -/
def round1 (q : ℚ) : ℚ := (jsRound (q * 10) : ℚ) / 10

/-- `vault.ts` 336-356, `buildCumulativeSpendCurve`: the day-indexed map of
    2-dp-rounded running totals for days `1..daysInMonth`, as the association
    list the loop inserts in order. -/
def buildCumulativeSpendCurve (monthlyData : MonthlyData) : List (Nat × ℚ) :=
  (List.range' 1 (daysInMonthOf monthlyData.month)).map fun d =>
    (d, round2 (runningTotal monthlyData d))

/-- The `source` tag of the expected-spend result
    (`'last_month' | 'linear'` in `vault.ts`). -/
inductive PaceSource where
  | last_month
  | linear
deriving DecidableEq, Repr

/-- `Math.max(...curve.keys())` for the non-empty curves on which `vault.ts`
    385 evaluates it. -/
def maxKey (curve : List (Nat × ℚ)) : Nat :=
  (curve.map Prod.fst).foldl Nat.max 0

/-- `vault.ts` 362-398, `getExpectedSpendFromCurve`. -/
def getExpectedSpendFromCurve (dayOfMonth daysInCurrentMonth : Nat)
    (lastMonthCurve : Option (List (Nat × ℚ))) (monthlyTarget : ℚ) :
    ℚ × PaceSource :=
  match lastMonthCurve with
  | none =>
    (((dayOfMonth : ℚ) / (daysInCurrentMonth : ℚ)) * monthlyTarget,
      PaceSource.linear)
  | some curve =>
    if curve.length == 0 then
      (((dayOfMonth : ℚ) / (daysInCurrentMonth : ℚ)) * monthlyTarget,
        PaceSource.linear)
    else
      match curve.lookup dayOfMonth with
      | some v => (v, PaceSource.last_month)
      | none =>
        if maxKey curve < dayOfMonth then
          ((curve.lookup (maxKey curve)).getD 0, PaceSource.last_month)
        else
          (((dayOfMonth : ℚ) / (daysInCurrentMonth : ℚ)) * monthlyTarget,
            PaceSource.linear)

/-- `SpendingStatus` of `types.ts`. -/
inductive SpendingStatus where
  | on_track
  | watch
  | over
deriving DecidableEq, Repr

/-- `PaceStatus` of `types.ts`. -/
inductive PaceStatus where
  | ahead
  | on_pace
  | behind
deriving DecidableEq, Repr

/-- The `Settings` record. -/
structure Settings where
  monthly_target : ℚ
  sync_days : Nat
  timezone : String
deriving DecidableEq, Repr

/-- The ambient clock `new Date()` of `computeSummaryFromMonthlyData`,
    passed explicitly: calendar year, 1-based month, day of month, and the
    `toISOString()` rendering. -/
structure NowDate where
  year : Nat
  month : Nat
  day : Nat
  iso : String
deriving DecidableEq, Repr

/-- The `Period` record.  `end` is a Lean keyword, so that field is named
    `endDate` here. -/
structure Period where
  start : String
  endDate : String
  days_elapsed : Nat
  days_remaining : Int
deriving DecidableEq, Repr

/-- The `Spending` record. -/
structure Spending where
  total : ℚ
  target : ℚ
  remaining : ℚ
  percent_used : ℚ
  daily_average : ℚ
  projected_total : ℚ
deriving DecidableEq, Repr

/-- The `Pace` record. -/
structure Pace where
  expected : ℚ
  actual : ℚ
  diff : ℚ
  status : PaceStatus
  percent_diff : ℚ
  source : PaceSource
deriving DecidableEq, Repr

/-- One entry of `top_categories`. -/
structure CategoryTotal where
  category : String
  amount : ℚ
deriving DecidableEq, Repr

/-- One entry of `recent_transactions`. -/
structure RecentTransaction where
  date : String
  merchant : String
  amount : ℚ
deriving DecidableEq, Repr

/-- The `Summary` record of `types.ts`. -/
structure Summary where
  computed_at : String
  period : Period
  spending : Spending
  pace : Pace
  status : SpendingStatus
  top_categories : List CategoryTotal
  recent_transactions : List RecentTransaction
deriving DecidableEq, Repr

/-- The string constant `0` used for zero padding. -/
def zeroStr : String := "0"

/-- Two-digit zero padding of a day or month number. -/
def pad2 (n : Nat) : String :=
  if n < 10 then zeroStr ++ toString n else toString n

/-- The `YYYY-MM-DD` rendering of the first day of a month
    (`startOfMonth.toISOString().split('T')[0]`, idealized as timezone-free
    calendar formatting; no claim depends on this display field). -/
def monthStartStr (year monthNum : Nat) : String :=
  toString year ++ dashSep ++ pad2 monthNum ++ dashSep ++ pad2 1

/-- The `YYYY-MM-DD` rendering of the last day of a month (same idealization
    as `monthStartStr`). -/
def monthEndStr (year monthNum days : Nat) : String :=
  toString year ++ dashSep ++ pad2 monthNum ++ dashSep ++ pad2 days

/-- `vault.ts` 457-461: `categoryMap.set(t.category, (get ?? 0) + t.amount)`;
    a JavaScript `Map` keeps the first-insertion position of a key. -/
def addToCategoryMap : List (String × ℚ) → String → ℚ → List (String × ℚ)
  | [], cat, amt => [(cat, amt)]
  | (c, v) :: rest, cat, amt =>
    if c == cat then (c, v + amt) :: rest
    else (c, v) :: addToCategoryMap rest cat amt

/-- The comparator `(a, b) => b.amount - a.amount` of `vault.ts` 464 as a
    stable sort order (descending by amount). -/
def amountDescLe (a b : CategoryTotal) : Bool := decide (b.amount ≤ a.amount)

/-- `vault.ts` 403-498, `computeSummaryFromMonthlyData`.  All number fields
    are exact rationals; note that at `monthly_target = 0` the rational
    convention `q / 0 = 0` departs from the JavaScript `Infinity`/`NaN` — the
    `JsNum` definitions below model that one expression faithfully. -/
def computeSummaryFromMonthlyData (monthlyData : MonthlyData)
    (settings : Settings) (lastMonthCurve : Option (List (Nat × ℚ)))
    (now : NowDate) : Summary :=
  let year := yearOfMonthStr monthlyData.month
  let monthNum := monthNumOfMonthStr monthlyData.month
  let daysInMonth := daysInMonthNum year monthNum
  let dayOfMonth :=
    if now.month == monthNum && now.year == year then now.day else daysInMonth
  let daysRemaining : Int := (daysInMonth : Int) - (dayOfMonth : Int)
  let transactions := monthlyData.transactions
  let total : ℚ := (transactions.map (fun t => t.amount)).sum
  let remaining := settings.monthly_target - total
  let percentUsed := (total / settings.monthly_target) * 100
  let dailyAverage := if dayOfMonth > 0 then total / (dayOfMonth : ℚ) else 0
  let es := getExpectedSpendFromCurve dayOfMonth daysInMonth lastMonthCurve
    settings.monthly_target
  let expectedSpend := es.1
  let paceDiff := total - expectedSpend
  let pacePercentDiff :=
    if expectedSpend > 0 then (paceDiff / expectedSpend) * 100 else 0
  let paceStatus :=
    if paceDiff < -expectedSpend * (5 / 100) then PaceStatus.ahead
    else if paceDiff > expectedSpend * (5 / 100) then PaceStatus.behind
    else PaceStatus.on_pace
  let pace : Pace :=
    { expected := round2 expectedSpend
      actual := round2 total
      diff := round2 paceDiff
      status := paceStatus
      percent_diff := round1 pacePercentDiff
      source := es.2 }
  let status :=
    if total > settings.monthly_target then SpendingStatus.over
    else if percentUsed > ((dayOfMonth : ℚ) / (daysInMonth : ℚ)) * 100 + 10
      then SpendingStatus.watch
    else SpendingStatus.on_track
  let categoryMap :=
    transactions.foldl (fun m t => addToCategoryMap m t.category t.amount) []
  let topCategories :=
    ((categoryMap.map fun p => CategoryTotal.mk p.1 p.2).mergeSort
      amountDescLe).take 5
  let recentTransactions :=
    ((transactions.mergeSort dateDescLe).take 5).map fun t =>
      RecentTransaction.mk t.date t.merchant t.amount
  { computed_at := now.iso
    period :=
      { start := monthStartStr year monthNum
        endDate := monthEndStr year monthNum daysInMonth
        days_elapsed := dayOfMonth
        days_remaining := daysRemaining }
    spending :=
      { total := round2 total
        target := settings.monthly_target
        remaining := round2 remaining
        percent_used := round1 percentUsed
        daily_average := round2 dailyAverage
        projected_total := round2 total }
    pace := pace
    status := status
    top_categories := topCategories
    recent_transactions := recentTransactions }

/-- Message fragment of the new-transaction reason. -/
def newTxMid : String := " new transaction"

/-- The plural suffix character. -/
def sChar : String := "s"

/-- Reason string of `check.ts` 75. -/
def paceElevatedMsg : String := "spending pace elevated"

/-- Reason string of `check.ts` 77. -/
def overBudgetMsg : String := "over budget"

/-- Message fragment of the over-pace reason. -/
def overPaceTail : String := "% over pace"

/-- Message fragment of the low-remaining reason. -/
def onlyDollar : String := "only $"

/-- Message fragment of the low-remaining reason. -/
def remainingTail : String := " remaining"

/-- Reason string of `check.ts` 92. -/
def endOfMonthMsg : String := "end of month approaching"

/-- Reason string of `check.ts` 97. -/
def newMonthMsg : String := "new month started"

/-- `check.ts` 70: `` `${n} new transaction${n > 1 ? 's' : ''}` ``. -/
def newTransactionReason (n : Nat) : String :=
  toString n ++ newTxMid ++ (if 1 < n then sChar else emptyStr)

/-- `check.ts` 66-98: the alert-reason list, in the source's fixed push
    order, each reason gated independently. -/
def checkReasons (summary : Summary) (newTransactionCount : Nat) :
    List String :=
  (if 0 < newTransactionCount
    then [newTransactionReason newTransactionCount] else []) ++
  (if summary.status = SpendingStatus.watch then [paceElevatedMsg]
   else if summary.status = SpendingStatus.over then [overBudgetMsg]
   else []) ++
  (if summary.pace.status = PaceStatus.behind ∧ 10 < summary.pace.percent_diff
    then [toString (jsRound summary.pace.percent_diff) ++ overPaceTail]
    else []) ++
  (if summary.spending.remaining < 500 ∧ 0 < summary.spending.remaining
    then [onlyDollar ++ toString (jsRound summary.spending.remaining) ++
      remainingTail]
    else []) ++
  (if summary.period.days_remaining ≤ 3 ∧ 0 < summary.period.days_remaining
    then [endOfMonthMsg] else []) ++
  (if summary.period.days_elapsed = 1 then [newMonthMsg] else [])

/-- `check.ts` 100: `shouldAlert = reasons.length > 0`. -/
def checkShouldAlert (summary : Summary) (newTransactionCount : Nat) : Bool :=
  decide (0 < (checkReasons summary newTransactionCount).length)

/-- A JavaScript double as an exact value: finite rational, the two
    infinities, or `NaN`. -/
inductive JsNum where
  | fin (q : ℚ)
  | posInf
  | negInf
  | nan
deriving DecidableEq, Repr

/-- JavaScript division, including the division-by-zero behaviour
    (`x / 0` is `±Infinity` for `x ≠ 0` and `NaN` for `x = 0`). -/
def jsDiv : JsNum → JsNum → JsNum
  | JsNum.fin a, JsNum.fin b =>
    if b = 0 then
      (if a = 0 then JsNum.nan
       else if 0 < a then JsNum.posInf else JsNum.negInf)
    else JsNum.fin (a / b)
  | JsNum.nan, _ => JsNum.nan
  | _, JsNum.nan => JsNum.nan
  | JsNum.posInf, JsNum.fin b =>
    if 0 ≤ b then JsNum.posInf else JsNum.negInf
  | JsNum.negInf, JsNum.fin b =>
    if 0 ≤ b then JsNum.negInf else JsNum.posInf
  | JsNum.fin _, JsNum.posInf => JsNum.fin 0
  | JsNum.fin _, JsNum.negInf => JsNum.fin 0
  | _, _ => JsNum.nan

/-- JavaScript multiplication on the same value space. -/
def jsMul : JsNum → JsNum → JsNum
  | JsNum.fin a, JsNum.fin b => JsNum.fin (a * b)
  | JsNum.nan, _ => JsNum.nan
  | _, JsNum.nan => JsNum.nan
  | JsNum.posInf, JsNum.fin b =>
    if 0 < b then JsNum.posInf else if b < 0 then JsNum.negInf else JsNum.nan
  | JsNum.fin a, JsNum.posInf =>
    if 0 < a then JsNum.posInf else if a < 0 then JsNum.negInf else JsNum.nan
  | JsNum.negInf, JsNum.fin b =>
    if 0 < b then JsNum.negInf else if b < 0 then JsNum.posInf else JsNum.nan
  | JsNum.fin a, JsNum.negInf =>
    if 0 < a then JsNum.negInf else if a < 0 then JsNum.posInf else JsNum.nan
  | JsNum.posInf, JsNum.posInf => JsNum.posInf
  | JsNum.posInf, JsNum.negInf => JsNum.negInf
  | JsNum.negInf, JsNum.posInf => JsNum.negInf
  | JsNum.negInf, JsNum.negInf => JsNum.posInf

/-- `vault.ts` 422, with JavaScript number semantics:
    `percentUsed = (total / settings.monthly_target) * 100` — computed with
    no guard on the divisor. -/
def percentUsedJsExpr (total target : ℚ) : JsNum :=
  jsMul (jsDiv (JsNum.fin total) (JsNum.fin target)) (JsNum.fin 100)

/-- `vault.ts` 430, with JavaScript number semantics:
    `pacePercentDiff = expectedSpend > 0 ? (paceDiff / expectedSpend) * 100 : 0`
    — guarded against a non-positive divisor. -/
def pacePercentDiffJsExpr (paceDiff expectedSpend : ℚ) : JsNum :=
  if 0 < expectedSpend then
    jsMul (jsDiv (JsNum.fin paceDiff) (JsNum.fin expectedSpend)) (JsNum.fin 100)
  else JsNum.fin 0

/-- Concrete data used by the example scenarios below. -/
def aId : String := "a"

/-- Identifier of a pending transaction. -/
def qId : String := "q"

/-- Identifier of a posted transaction. -/
def pId : String := "p"

/-- Identifier reused between a stored and an incoming transaction. -/
def xId : String := "x"

/-- An identifier absent from every example ledger. -/
def zId : String := "z"

/-- A fresh incoming identifier. -/
def nId : String := "n"

/-- A merchant display string. -/
def merchStr : String := "Store A"

/-- A category label. -/
def catStr : String := "Shopping"

/-- A sync timestamp. -/
def syncT0 : String := "2026-01-15T10:00:00Z"

/-- A later sync timestamp. -/
def syncT1 : String := "2026-01-16T10:00:00Z"

/-- A still later sync timestamp. -/
def syncT2 : String := "2026-01-17T10:00:00Z"

/-- The duplicate-submission transaction of the spec's end-to-end scenario. -/
def txA : Transaction :=
  { id := aId, date := "2026-01-05", amount := 50,
    merchant := merchStr, category := catStr }

/-- An empty January ledger. -/
def emptyLedgerJan : MonthlyData :=
  { month := "2026-01", last_sync := syncT0, transactions := [] }

/-- A stored pending transaction with id `q`. -/
def tQpend : Transaction :=
  { id := qId, date := "2026-01-10", amount := 20,
    merchant := merchStr, category := catStr, pending := some true }

/-- A ledger holding only the pending transaction `q`. -/
def mdPend : MonthlyData :=
  { month := "2026-01", last_sync := syncT0, transactions := [tQpend] }

/-- A posted transaction superseding `q`. -/
def tPostQ : Transaction :=
  { id := pId, date := "2026-01-12", amount := 22,
    merchant := merchStr, category := catStr, pending := some false,
    pending_transaction_id := some qId }

/-- A posted transaction whose `pending_transaction_id` points at an id
    absent from every example ledger. -/
def tPostZ : Transaction :=
  { id := nId, date := "2026-01-08", amount := 30,
    merchant := merchStr, category := catStr, pending := some false,
    pending_transaction_id := some zId }

/-- A posted transaction dated like `tQpend` that supersedes it (used for
    the batch that contains both a pending transaction and its posted
    replacement). -/
def tPsame : Transaction :=
  { id := pId, date := "2026-01-10", amount := 21,
    merchant := merchStr, category := catStr, pending := some false,
    pending_transaction_id := some qId }

/-- A stored posted transaction with id `x`. -/
def tXold : Transaction :=
  { id := xId, date := "2026-01-09", amount := 5,
    merchant := merchStr, category := catStr, pending := some false }

/-- A ledger holding the pending `q` and the posted `x`. -/
def mdC10 : MonthlyData :=
  { month := "2026-01", last_sync := syncT0,
    transactions := [tQpend, tXold] }

/-- An incoming posted transaction whose id `x` is already stored and which
    also supersedes the stored pending `q`. -/
def tPxRef : Transaction :=
  { id := xId, date := "2026-01-12", amount := 7,
    merchant := merchStr, category := catStr, pending := some false,
    pending_transaction_id := some qId }

/-- A February ledger with two non-negative amounts (days 3 and 10). -/
def mdCurvePos : MonthlyData :=
  { month := "2026-02", last_sync := syncT0,
    transactions :=
      [{ id := aId, date := "2026-02-03", amount := 50,
         merchant := merchStr, category := catStr },
       { id := pId, date := "2026-02-10", amount := 20,
         merchant := merchStr, category := catStr }] }

/-- A February ledger containing a refund (negative amount). -/
def mdCurveNeg : MonthlyData :=
  { month := "2026-02", last_sync := syncT0,
    transactions :=
      [{ id := aId, date := "2026-02-03", amount := 50,
         merchant := merchStr, category := catStr },
       { id := pId, date := "2026-02-10", amount := -20,
         merchant := merchStr, category := catStr }] }

/-- A January ledger with a single 6500 charge (the spec's status
    example). -/
def mdSum : MonthlyData :=
  { month := "2026-01", last_sync := syncT0,
    transactions :=
      [{ id := aId, date := "2026-01-15", amount := 6500,
         merchant := merchStr, category := catStr }] }

/-- Settings with the 8000 monthly target of the spec's examples. -/
def settings8000 : Settings :=
  { monthly_target := 8000, sync_days := 30, timezone := catStr }

/-- January 28, 2026 as the injected clock. -/
def now28 : NowDate :=
  { year := 2026, month := 1, day := 28, iso := syncT0 }

/-- A summary instance for the alert-evaluator example: status `over`,
    remaining `-500`, no other gate satisfied. -/
def exSummary : Summary :=
  { computed_at := syncT0
    period :=
      { start := syncT0, endDate := syncT0,
        days_elapsed := 21, days_remaining := 10 }
    spending :=
      { total := 8500, target := 8000, remaining := -500,
        percent_used := 106, daily_average := 404, projected_total := 8500 }
    pace :=
      { expected := 5600, actual := 8500, diff := 2900,
        status := PaceStatus.on_pace, percent_diff := 0,
        source := PaceSource.last_month }
    status := SpendingStatus.over
    top_categories := []
    recent_transactions := [] }

/-- The executable floor agrees with Mathlib's floor on `ℚ`. -/
theorem ratFloor_eq_floor (q : ℚ) : ratFloor q = ⌊q⌋ := by
  rw [Rat.floor_def]; rfl

/-- `jsRound` is the floor of `q + 1/2`. -/
theorem jsRound_eq (q : ℚ) : jsRound q = ⌊q + 1 / 2⌋ := by
  rw [jsRound, ratFloor_eq_floor]

/-- `Math.round` is monotone. -/
theorem jsRound_mono {q r : ℚ} (h : q ≤ r) : jsRound q ≤ jsRound r := by
  rw [jsRound_eq, jsRound_eq]
  exact Int.floor_mono (by linarith)

/-- Rounding to two decimals is monotone. -/
theorem round2_mono {q r : ℚ} (h : q ≤ r) : round2 q ≤ round2 r := by
  unfold round2
  have : jsRound (q * 100) ≤ jsRound (r * 100) := jsRound_mono (by linarith)
  have : ((jsRound (q * 100) : ℚ)) ≤ (jsRound (r * 100) : ℚ) := by
    exact_mod_cast this
  linarith

/-- `Math.round` is the identity on integers. -/
theorem jsRound_intCast (z : ℤ) : jsRound (z : ℚ) = z := by
  rw [jsRound_eq]
  rw [Int.floor_eq_iff]
  constructor
  · norm_num
  · linarith

/-- Rounding to two decimals fixes every integer multiple of `1/100`
    (every amount expressed in whole cents). -/
theorem round2_cents {q : ℚ} (h : ∃ z : ℤ, q = (z : ℚ) / 100) :
    round2 q = q := by
  obtain ⟨z, rfl⟩ := h
  unfold round2
  have h100 : ((z : ℚ) / 100) * 100 = (z : ℚ) := by field_simp
  rw [h100, jsRound_intCast]

/-- `List.contains` is membership, for strings. -/
theorem contains_eq_mem (l : List String) (a : String) :
    l.contains a = true ↔ a ∈ l := by
  simp [List.contains_iff_exists_mem_beq, beq_iff_eq]

/-- The transaction sort order is transitive (needed for
    `List.sorted_mergeSort`). -/
theorem dateDescLe_trans : ∀ a b c : Transaction,
    dateDescLe a b = true → dateDescLe b c = true → dateDescLe a c = true := by
  intro a b c hab hbc
  simp only [dateDescLe, Bool.not_eq_true', decide_eq_false_iff_not] at *
  intro hac
  rcases lt_trichotomy a.date.data b.date.data with h | h | h
  · exact hab h
  · exact hbc (h ▸ hac)
  · exact hbc (lt_trans h hac)

/-- The transaction sort order is total. -/
theorem dateDescLe_total : ∀ a b : Transaction,
    (dateDescLe a b || dateDescLe b a) = true := by
  intro a b
  simp only [dateDescLe, Bool.or_eq_true, Bool.not_eq_true',
    decide_eq_false_iff_not]
  rcases le_total a.date.data b.date.data with h | h
  · exact Or.inr (not_lt.mpr h)
  · exact Or.inl (not_lt.mpr h)

/-- Looking up a day inside the covered range of a day-indexed map built
    over `range'`. -/
theorem lookup_map_range'_some (f : Nat → ℚ) :
    ∀ (n s d : Nat), s ≤ d → d < s + n →
    ((List.range' s n).map fun k => (k, f k)).lookup d = some (f d) := by
  intro n
  induction n with
  | zero => intro s d h1 h2; omega
  | succ m ih =>
    intro s d h1 h2
    rw [List.range'_succ]
    simp only [List.map_cons, List.lookup_cons]
    by_cases hd : d = s
    · subst hd; simp
    · have : (d == s) = false := by simp [hd]
      rw [this]
      exact ih (s + 1) d (by omega) (by omega)

/-- Looking up a day beyond the covered range fails. -/
theorem lookup_map_range'_none (f : Nat → ℚ) :
    ∀ (n s d : Nat), s + n ≤ d →
    ((List.range' s n).map fun k => (k, f k)).lookup d = none := by
  intro n
  induction n with
  | zero => intro s d _; simp
  | succ m ih =>
    intro s d h
    rw [List.range'_succ]
    simp only [List.map_cons, List.lookup_cons]
    have : (d == s) = false := by simp; omega
    rw [this]
    exact ih (s + 1) d (by omega)

/-- Folding `max` over `1..n` starting from `0` yields `n`. -/
theorem foldl_max_range' : ∀ n : Nat, 1 ≤ n →
    (List.range' 1 n).foldl Nat.max 0 = n := by
  intro n
  induction n with
  | zero => intro h; omega
  | succ m ih =>
    intro _
    rw [List.range'_concat, List.foldl_append]
    simp only [List.foldl_cons, List.foldl_nil]
    by_cases hm : m = 0
    · subst hm; rfl
    · rw [ih (by omega)]
      simp only [one_mul]
      have h1 : Nat.max m (1 + m) = 1 + m := Nat.max_eq_right (by omega)
      rw [h1]; omega

/-- Every month has at least 28 days. -/
theorem daysInMonthNum_ge (y m : Nat) : 28 ≤ daysInMonthNum y m := by
  unfold daysInMonthNum
  split <;> [skip; split] <;> [split; skip; skip] <;> omega

/-- The largest key of a built cumulative curve is the month's last day. -/
theorem maxKey_build (md : MonthlyData) :
    maxKey (buildCumulativeSpendCurve md) = daysInMonthOf md.month := by
  unfold maxKey buildCumulativeSpendCurve
  rw [List.map_map]
  have hfst : (Prod.fst ∘ fun d => (d, round2 (runningTotal md d))) =
      fun d : Nat => d := rfl
  rw [hfst, List.map_id']
  have h28 : 28 ≤ daysInMonthOf md.month := daysInMonthNum_ge _ _
  exact foldl_max_range' _ (by omega)

/-- The built curve stores, at each day of the month, the rounded running
    total through that day. -/
theorem curve_lookup (md : MonthlyData) (d : Nat) (h1 : 1 ≤ d)
    (h2 : d ≤ daysInMonthOf md.month) :
    (buildCumulativeSpendCurve md).lookup d =
      some (round2 (runningTotal md d)) := by
  unfold buildCumulativeSpendCurve
  exact lookup_map_range'_some _ _ 1 d h1 (by omega)

/-- Looking up a day past the end of the month in a built curve fails. -/
theorem curve_lookup_none (md : MonthlyData) (d : Nat)
    (h : daysInMonthOf md.month < d) :
    (buildCumulativeSpendCurve md).lookup d = none := by
  unfold buildCumulativeSpendCurve
  exact lookup_map_range'_none _ _ 1 d (by omega)

/-- A built curve is never empty. -/
theorem build_length (md : MonthlyData) :
    (buildCumulativeSpendCurve md).length = daysInMonthOf md.month := by
  unfold buildCumulativeSpendCurve
  rw [List.length_map, List.length_range']

/-- A daily bucket of a ledger with non-negative amounts is non-negative. -/
theorem dailySpend_nonneg (md : MonthlyData)
    (h : ∀ t ∈ md.transactions, 0 ≤ t.amount) (d : Nat) :
    0 ≤ dailySpend md d := by
  unfold dailySpend
  apply List.sum_nonneg
  intro x hx
  obtain ⟨t, ht, rfl⟩ := List.mem_map.mp hx
  exact h t (List.mem_filter.mp ht).1

/-- Running totals are monotone for non-negative amounts. -/
theorem runningTotal_mono (md : MonthlyData)
    (h : ∀ t ∈ md.transactions, 0 ≤ t.amount) {d1 d2 : Nat} (hd : d1 ≤ d2) :
    runningTotal md d1 ≤ runningTotal md d2 := by
  induction d2, hd using Nat.le_induction with
  | base => exact le_refl _
  | succ n _ ih =>
    calc runningTotal md d1 ≤ runningTotal md n := ih
    _ ≤ runningTotal md n + dailySpend md (n + 1) := by
        have := dailySpend_nonneg md h (n + 1)
        linarith
    _ = runningTotal md (n + 1) := rfl

/-- The running total is the sum of the daily buckets processed so far. -/
theorem runningTotal_eq_sum (md : MonthlyData) : ∀ n : Nat,
    runningTotal md n = ((List.range' 1 n).map (dailySpend md)).sum := by
  intro n
  induction n with
  | zero => simp [runningTotal]
  | succ m ih =>
    rw [List.range'_concat]
    simp only [one_mul, List.map_append, List.sum_append, List.map_cons,
      List.map_nil, List.sum_cons, List.sum_nil]
    show runningTotal md m + dailySpend md (m + 1) = _
    rw [ih]
    ring_nf

/-- Sum of a pointwise sum of two functions over a list. -/
theorem sum_map_add {α : Type} (l : List α) (f g : α → ℚ) :
    (l.map fun x => f x + g x).sum = (l.map f).sum + (l.map g).sum := by
  induction l with
  | nil => simp
  | cons x xs ih => simp only [List.map_cons, List.sum_cons, ih]; ring

/-- Summing an indicator over a list that misses the index gives `0`. -/
theorem sum_map_ite_of_not_mem {p : Nat} {l : List Nat} (a : ℚ)
    (h : p ∉ l) : (l.map fun k => if p = k then a else 0).sum = 0 := by
  induction l with
  | nil => simp
  | cons x xs ih =>
    simp only [List.mem_cons, not_or] at h
    simp only [List.map_cons, List.sum_cons, if_neg h.1, ih h.2, add_zero]

/-- Summing an indicator over a duplicate-free list containing the index
    gives the indicated value. -/
theorem sum_map_ite_of_mem {p : Nat} {l : List Nat} (a : ℚ)
    (hnd : l.Nodup) (h : p ∈ l) :
    (l.map fun k => if p = k then a else 0).sum = a := by
  induction l with
  | nil => cases h
  | cons x xs ih =>
    rcases List.mem_cons.mp h with h1 | h1
    · subst h1
      have hnot : p ∉ xs := (List.nodup_cons.mp hnd).1
      simp [sum_map_ite_of_not_mem a hnot]
    · have hne : p ≠ x := by
        rintro rfl; exact (List.nodup_cons.mp hnd).1 h1
      simp only [List.map_cons, List.sum_cons, if_neg hne,
        ih (List.nodup_cons.mp hnd).2 h1, zero_add]

/-- Day-bucketing partitions the ledger total: summing the per-day bucket
    sums over a duplicate-free day list covering every transaction's day
    recovers the sum of all amounts. -/
theorem sum_buckets_eq_total (ts : List Transaction) (l : List Nat)
    (hnd : l.Nodup) (hall : ∀ t ∈ ts, dayOfDate t.date ∈ l) :
    (l.map fun k =>
      ((ts.filter fun t => dayOfDate t.date == k).map
        (fun t => t.amount)).sum).sum
      = (ts.map (fun t => t.amount)).sum := by
  induction ts with
  | nil => simp
  | cons t ts ih =>
    have hstep : (fun k =>
        (((t :: ts).filter fun u => dayOfDate u.date == k).map
          (fun u => u.amount)).sum) =
        fun k => (if dayOfDate t.date = k then t.amount else 0) +
          ((ts.filter fun u => dayOfDate u.date == k).map
            (fun u => u.amount)).sum := by
      funext k
      by_cases h : dayOfDate t.date = k
      · simp [List.filter_cons, h]
      · simp [List.filter_cons, h]
    rw [hstep, sum_map_add,
      sum_map_ite_of_mem t.amount hnd (hall t (List.mem_cons_self t ts)),
      ih (fun u hu => hall u (List.mem_cons_of_mem t hu))]
    simp

/-- Filtering splits a list's length between kept and dropped elements. -/
theorem length_filter_add {α : Type} (l : List α) (p : α → Bool) :
    (l.filter p).length + (l.filter fun x => !(p x)).length = l.length := by
  induction l with
  | nil => rfl
  | cons x xs ih =>
    by_cases h : p x = true
    · rw [List.filter_cons_of_pos h, List.filter_cons_of_neg (by simp [h])]
      simp only [List.length_cons]
      omega
    · have h' : p x = false := by simpa using h
      rw [List.filter_cons_of_neg (by simp [h']),
        List.filter_cons_of_pos (by simp [h'])]
      simp only [List.length_cons]
      omega

/-- A sum of whole-cent amounts is itself a whole number of cents. -/
theorem sum_cents (ts : List Transaction)
    (h : ∀ t ∈ ts, ∃ z : ℤ, t.amount = (z : ℚ) / 100) :
    ∃ z : ℤ, (ts.map (fun t => t.amount)).sum = (z : ℚ) / 100 := by
  induction ts with
  | nil => exact ⟨0, by simp⟩
  | cons t ts ih =>
    obtain ⟨z1, hz1⟩ := h t (List.mem_cons_self t ts)
    obtain ⟨z2, hz2⟩ := ih (fun u hu => h u (List.mem_cons_of_mem t hu))
    refine ⟨z1 + z2, ?_⟩
    simp only [List.map_cons, List.sum_cons, hz1, hz2]
    push_cast
    ring

/-- The merged transaction list, componentwise. -/
theorem merge_updated_transactions (md : MonthlyData)
    (ts : List Transaction) (now : String) :
    (addTransactionsToMonthlyData md ts now).updated.transactions =
      ((existingFiltered md ts) ++ (toAdd md ts)).mergeSort dateDescLe := rfl

/-- The reported added count, componentwise. -/
theorem merge_added (md : MonthlyData) (ts : List Transaction)
    (now : String) :
    (addTransactionsToMonthlyData md ts now).added =
      ((toAdd md ts).length : Int) -
        ((md.transactions.length : Int) -
          ((existingFiltered md ts).length : Int)) := rfl

/-- A merge never touches the `month` field. -/
theorem merge_month (md : MonthlyData) (ts : List Transaction)
    (now : String) :
    (addTransactionsToMonthlyData md ts now).updated.month = md.month := rfl

/-- A merge never touches the `last_check` field. -/
theorem merge_last_check (md : MonthlyData) (ts : List Transaction)
    (now : String) :
    (addTransactionsToMonthlyData md ts now).updated.last_check =
      md.last_check := rfl

/-- A merge stamps `last_sync` with the merge time. -/
theorem merge_last_sync (md : MonthlyData) (ts : List Transaction)
    (now : String) :
    (addTransactionsToMonthlyData md ts now).updated.last_sync = now := rfl

/-- Evaluation rule for a merge whose surviving-plus-kept list is already
    sorted (the stable sort then leaves it unchanged). -/
theorem merge_eval (md : MonthlyData) (ts : List Transaction) (now : String)
    (ef adds : List Transaction) (hef : existingFiltered md ts = ef)
    (hadds : toAdd md ts = adds)
    (hsorted : (ef ++ adds).Pairwise fun a b => dateDescLe a b = true) :
    addTransactionsToMonthlyData md ts now =
      { added := (adds.length : Int) -
          ((md.transactions.length : Int) - (ef.length : Int))
        updated := { md with last_sync := now, transactions := ef ++ adds } }
    := by
  unfold addTransactionsToMonthlyData
  rw [hef, hadds]
  dsimp only
  rw [List.mergeSort_of_sorted hsorted]

/-- C10: For every merge performed by `addTransactionsToMonthlyData`, the
    returned added count equals the number of transactions in the updated
    ledger minus the number in the input ledger (so it can be negative, as
    the concrete conjunct shows: a posted transaction whose id is already
    stored supersedes and removes a pending transaction, giving `added = -1`),
    and the merge leaves `month` and `last_check` unchanged, updating only
    `transactions` and `last_sync`. -/
theorem merge_added_equals_size_delta :
    (∀ (md : MonthlyData) (ts : List Transaction) (now : String),
      (addTransactionsToMonthlyData md ts now).added =
        ((addTransactionsToMonthlyData md ts
          now).updated.transactions.length : Int)
          - (md.transactions.length : Int)
      ∧ (addTransactionsToMonthlyData md ts now).updated.month = md.month
      ∧ (addTransactionsToMonthlyData md ts now).updated.last_check =
          md.last_check
      ∧ (addTransactionsToMonthlyData md ts now).updated.last_sync = now)
    ∧ (addTransactionsToMonthlyData mdC10 [tPxRef] syncT1).added = -1 := by
  constructor
  · intro md ts now
    refine ⟨?_, rfl, rfl, rfl⟩
    rw [merge_added, merge_updated_transactions, List.length_mergeSort,
      List.length_append]
    have hef : (existingFiltered md ts).length ≤ md.transactions.length :=
      List.length_filter_le _ _
    omega
  · have h := merge_eval mdC10 [tPxRef] syncT1 [tXold] []
      (by decide) (by decide) (by decide)
    rw [h]
    decide

/-- C1: evaluation at the failing input of the duplicate-submission
    scenario.  Merging the batch `[txA, txA]` (two copies of the same
    transaction id `a`) into an empty ledger stores BOTH copies and reports
    `added = 2`, so the at-rest id-uniqueness invariant and the spec's
    `addedCount = 1` both fail: the incoming batch is only deduplicated
    against the stored ledger, never against itself. -/
theorem merge_duplicate_batch_breaks_id_uniqueness :
    (addTransactionsToMonthlyData emptyLedgerJan [txA, txA] syncT1).added = 2
    ∧ ((addTransactionsToMonthlyData emptyLedgerJan [txA, txA]
        syncT1).updated.transactions.map fun t => t.id) = [aId, aId]
    ∧ ¬ ((addTransactionsToMonthlyData emptyLedgerJan [txA, txA]
        syncT1).updated.transactions.map fun t => t.id).Nodup := by
  have h := merge_eval emptyLedgerJan [txA, txA] syncT1 [] [txA, txA]
    (by decide) (by decide) (by decide)
  rw [h]
  exact ⟨by decide, by decide, by decide⟩

/-- C2: For every merge (in which the referenced existing transactions are
    indeed pending ones), the returned added count equals the number of
    incoming transactions kept minus the number of existing pending
    transactions removed because a posted incoming transaction references
    them.  The two concrete conjuncts check the consequences: a posted
    transaction replacing a stored pending one nets `added = 0`, and a
    posted transaction whose reference id is absent is added normally with
    `added = 1`. -/
theorem added_count_net_accounting :
    (∀ (md : MonthlyData) (ts : List Transaction) (now : String),
      (∀ t ∈ md.transactions,
        (pendingIdsToRemove ts).contains t.id = true →
          t.pending = some true) →
      (addTransactionsToMonthlyData md ts now).added =
        ((toAdd md ts).length : Int) -
        ((md.transactions.filter fun t =>
            (pendingIdsToRemove ts).contains t.id &&
              (t.pending == some true)).length : Int))
    ∧ ((addTransactionsToMonthlyData mdPend [tPostQ] syncT1).added = 0
      ∧ ((addTransactionsToMonthlyData mdPend [tPostQ]
          syncT1).updated.transactions.map fun t => t.id) = [pId])
    ∧ ((addTransactionsToMonthlyData mdPend [tPostZ] syncT1).added = 1
      ∧ ((addTransactionsToMonthlyData mdPend [tPostZ]
          syncT1).updated.transactions.map fun t => t.id) = [qId, nId]) := by
  refine ⟨?_, ?_, ?_⟩
  · intro md ts now hp
    rw [merge_added]
    have e1 : (md.transactions.filter fun t =>
          (pendingIdsToRemove ts).contains t.id).length
        + (existingFiltered md ts).length = md.transactions.length :=
      length_filter_add md.transactions
        (fun t => (pendingIdsToRemove ts).contains t.id)
    have hcong : md.transactions.filter
          (fun t => (pendingIdsToRemove ts).contains t.id)
        = md.transactions.filter (fun t =>
            (pendingIdsToRemove ts).contains t.id &&
              (t.pending == some true)) := by
      apply List.filter_congr
      intro t ht
      by_cases hc : (pendingIdsToRemove ts).contains t.id = true
      · rw [hc, hp t ht hc]
        simp
      · have hc' : (pendingIdsToRemove ts).contains t.id = false := by
          simpa using hc
        rw [hc']
        simp
    rw [hcong] at e1
    omega
  · have h := merge_eval mdPend [tPostQ] syncT1 [] [tPostQ]
      (by decide) (by decide) (by decide)
    rw [h]
    exact ⟨by decide, by decide⟩
  · have h := merge_eval mdPend [tPostZ] syncT1 [tQpend] [tPostZ]
      (by decide) (by decide) (by decide)
    rw [h]
    exact ⟨by decide, by decide⟩

/-- C2 witness: the net-accounting formula instantiated at the concrete
    pending-to-posted replacement merge, with its hypothesis discharged. -/
theorem added_count_net_accounting_witness :
    (∀ t ∈ mdPend.transactions,
      (pendingIdsToRemove [tPostQ]).contains t.id = true →
        t.pending = some true)
    ∧ (addTransactionsToMonthlyData mdPend [tPostQ] syncT1).added =
        ((toAdd mdPend [tPostQ]).length : Int) -
        ((mdPend.transactions.filter fun t =>
            (pendingIdsToRemove [tPostQ]).contains t.id &&
              (t.pending == some true)).length : Int) :=
  ⟨by decide,
    added_count_net_accounting.1 mdPend [tPostQ] syncT1 (by decide)⟩

/-- C3 counterexample: merging the batch `[tQpend, tPsame]` — a pending
    transaction together with the posted transaction that supersedes it,
    both dated the same day — into an empty ledger and then re-merging the
    identical batch changes the stored ORDER (ids go from `[q, p]` to
    `[p, q]`), so the second merge is not idempotent on the ledger state as
    the claim states it. -/
theorem remerge_reorders_on_self_superseding_batch :
    (((addTransactionsToMonthlyData emptyLedgerJan [tQpend, tPsame]
        syncT1).updated.transactions.map fun t => t.id) = [qId, pId])
    ∧ (((addTransactionsToMonthlyData
        (addTransactionsToMonthlyData emptyLedgerJan [tQpend, tPsame]
          syncT1).updated [tQpend, tPsame]
        syncT2).updated.transactions.map fun t => t.id) = [pId, qId])
    ∧ (addTransactionsToMonthlyData
        (addTransactionsToMonthlyData emptyLedgerJan [tQpend, tPsame]
          syncT1).updated [tQpend, tPsame] syncT2).updated.transactions ≠
      (addTransactionsToMonthlyData emptyLedgerJan [tQpend, tPsame]
        syncT1).updated.transactions := by
  have h1 := merge_eval emptyLedgerJan [tQpend, tPsame] syncT1
    [] [tQpend, tPsame] (by decide) (by decide) (by decide)
  have hup1 := congrArg MergeResult.updated h1
  rw [hup1]
  have h2 := merge_eval
    { month := emptyLedgerJan.month, last_sync := syncT1,
      last_check := emptyLedgerJan.last_check,
      transactions := [] ++ [tQpend, tPsame] }
    [tQpend, tPsame] syncT2 [tPsame] [tQpend]
    (by decide) (by decide) (by decide)
  rw [h2]
  exact ⟨by decide, by decide, by decide⟩

/-- C3 (amended): re-merging the same batch reports `added = 0` and leaves
    the ledger's transaction list unchanged — same ids, same stored values,
    same order — PROVIDED no transaction of the batch carries an id that a
    posted transaction of the same batch references as its
    `pending_transaction_id` (without that proviso the id multiset is
    preserved but the order can change, see the counterexample); moreover a
    stored transaction whose id is not superseded survives the first merge
    with its originally stored values. -/
theorem remerge_idempotent_without_self_supersession :
    ∀ (md : MonthlyData) (b : List Transaction) (t1 t2 : String),
    (∀ t ∈ b, (pendingIdsToRemove b).contains t.id = false) →
    (addTransactionsToMonthlyData
        (addTransactionsToMonthlyData md b t1).updated b t2).added = 0
    ∧ (addTransactionsToMonthlyData
        (addTransactionsToMonthlyData md b t1).updated b
          t2).updated.transactions
      = (addTransactionsToMonthlyData md b t1).updated.transactions
    ∧ (∀ t ∈ md.transactions,
        (pendingIdsToRemove b).contains t.id = false →
          t ∈ (addTransactionsToMonthlyData md b t1).updated.transactions)
    := by
  intro md b t1 t2 hb
  have hmemL1 : ∀ t,
      t ∈ (addTransactionsToMonthlyData md b t1).updated.transactions ↔
        (t ∈ existingFiltered md b ∨ t ∈ toAdd md b) := by
    intro t
    rw [merge_updated_transactions, List.mem_mergeSort, List.mem_append]
  have hAll : ∀ t ∈ (addTransactionsToMonthlyData md b
      t1).updated.transactions,
      (pendingIdsToRemove b).contains t.id = false := by
    intro t ht
    rcases (hmemL1 t).mp ht with h | h
    · have h2 := (List.mem_filter.mp h).2
      simpa using h2
    · exact hb t (List.mem_filter.mp h).1
  have hef2 : existingFiltered (addTransactionsToMonthlyData md b t1).updated
      b = (addTransactionsToMonthlyData md b t1).updated.transactions := by
    unfold existingFiltered
    apply List.filter_eq_self.mpr
    intro t ht
    rw [hAll t ht]
    rfl
  have hta2 : toAdd (addTransactionsToMonthlyData md b t1).updated b
      = [] := by
    unfold toAdd
    apply List.filter_eq_nil_iff.mpr
    intro t ht
    suffices hc : (filteredIds (addTransactionsToMonthlyData md b t1).updated
        b).contains t.id = true by
      simp only [Bool.not_eq_true]
      rw [hc]
      simp
    unfold filteredIds
    rw [hef2, contains_eq_mem]
    by_cases hc1 : (filteredIds md b).contains t.id = true
    · have hm : t.id ∈ (existingFiltered md b).map (fun u => u.id) :=
        (contains_eq_mem _ _).mp hc1
      obtain ⟨u, hu, hid⟩ := List.mem_map.mp hm
      exact List.mem_map.mpr ⟨u, (hmemL1 u).mpr (Or.inl hu), hid⟩
    · have hc1' : (filteredIds md b).contains t.id = false := by
        simpa using hc1
      have htadd : t ∈ toAdd md b := by
        unfold toAdd
        apply List.mem_filter.mpr
        refine ⟨ht, ?_⟩
        show (!((filteredIds md b).contains t.id)) = true
        rw [hc1']
        rfl
      exact List.mem_map.mpr ⟨t, (hmemL1 t).mpr (Or.inr htadd), rfl⟩
  have hsorted : List.Pairwise (fun a b => dateDescLe a b = true)
      (addTransactionsToMonthlyData md b t1).updated.transactions := by
    rw [merge_updated_transactions]
    exact List.sorted_mergeSort dateDescLe_trans dateDescLe_total _
  refine ⟨?_, ?_, ?_⟩
  · rw [merge_added, hta2, hef2]
    simp
  · rw [merge_updated_transactions
      ((addTransactionsToMonthlyData md b t1).updated) b t2, hef2, hta2,
      List.append_nil, List.mergeSort_of_sorted hsorted]
  · intro t ht hc
    apply (hmemL1 t).mpr
    left
    unfold existingFiltered
    apply List.mem_filter.mpr
    refine ⟨ht, ?_⟩
    show (!((pendingIdsToRemove b).contains t.id)) = true
    rw [hc]
    rfl

/-- C3 witness: the amended idempotence applied to the concrete batch
    `[tPostZ]` (no self-supersession), with the hypothesis discharged. -/
theorem remerge_idempotent_without_self_supersession_witness :
    (∀ t ∈ [tPostZ], (pendingIdsToRemove [tPostZ]).contains t.id = false)
    ∧ (addTransactionsToMonthlyData
        (addTransactionsToMonthlyData mdPend [tPostZ] syncT1).updated
        [tPostZ] syncT2).added = 0 :=
  ⟨by decide,
    (remerge_idempotent_without_self_supersession mdPend [tPostZ] syncT1
      syncT2 (by decide)).1⟩

/-- C4: `getExpectedSpendFromCurve` implements the decision policy in
    order: a null or empty prior curve yields the linear ramp
    `(dayOfMonth / daysInCurrentMonth) * monthlyTarget` with the linear
    source (e.g. `expectedSpend 15 30 none 9000 = 4500`); a curve entry for
    `dayOfMonth` is returned with the prior-month-curve source (e.g. an
    entry `4200` at day 15); and a `dayOfMonth` beyond the prior month's
    last day yields the prior month's final cumulative value with the
    prior-month-curve source. -/
theorem expected_spend_decision_policy :
    (∀ (day days : Nat) (target : ℚ), 0 < days →
      getExpectedSpendFromCurve day days none target =
        (((day : ℚ) / (days : ℚ)) * target, PaceSource.linear)
      ∧ getExpectedSpendFromCurve day days (some []) target =
        (((day : ℚ) / (days : ℚ)) * target, PaceSource.linear))
    ∧ (∀ (day days : Nat) (c : List (Nat × ℚ)) (target v : ℚ),
        c.lookup day = some v →
        getExpectedSpendFromCurve day days (some c) target =
          (v, PaceSource.last_month))
    ∧ (∀ (day days : Nat) (md : MonthlyData) (target e : ℚ),
        daysInMonthOf md.month < day →
        (buildCumulativeSpendCurve md).lookup (daysInMonthOf md.month) =
          some e →
        getExpectedSpendFromCurve day days
          (some (buildCumulativeSpendCurve md)) target =
          (e, PaceSource.last_month))
    ∧ getExpectedSpendFromCurve 15 30 none 9000 = (4500, PaceSource.linear)
    ∧ getExpectedSpendFromCurve 15 31 (some [(15, 4200)]) 8000 =
        (4200, PaceSource.last_month) := by
  refine ⟨fun day days target _ => ⟨rfl, rfl⟩, ?_, ?_, ?_, ?_⟩
  · intro day days c target v h
    cases c with
    | nil => simp at h
    | cons x xs => simp [getExpectedSpendFromCurve, h]
  · intro day days md target e hday helookup
    have hlen : (buildCumulativeSpendCurve md).length ≠ 0 := by
      rw [build_length]
      have h28 : 28 ≤ daysInMonthOf md.month := daysInMonthNum_ge _ _
      omega
    have hlenb : ((buildCumulativeSpendCurve md).length == 0) = false := by
      rw [beq_eq_false_iff_ne]
      exact hlen
    have hnone : (buildCumulativeSpendCurve md).lookup day = none :=
      curve_lookup_none md day hday
    have hmax : maxKey (buildCumulativeSpendCurve md) =
        daysInMonthOf md.month := maxKey_build md
    simp only [getExpectedSpendFromCurve, hlenb, hnone, hmax, helookup,
      if_pos hday]
    simp [hday]
  · norm_num [getExpectedSpendFromCurve]
  · simp [getExpectedSpendFromCurve, List.lookup]

/-- C4 witness: the linear-ramp branch applied at a concrete day and month
    length, with the positivity hypothesis discharged. -/
theorem expected_spend_decision_policy_witness :
    0 < 30
    ∧ getExpectedSpendFromCurve 3 30 none 600 = (60, PaceSource.linear) := by
  refine ⟨by norm_num, ?_⟩
  have h := (expected_spend_decision_policy.1 3 30 600 (by norm_num)).1
  rw [h]
  norm_num

/-- C5: for a ledger of non-negative amounts the cumulative curve is
    monotonically non-decreasing over the whole day range, and a day with no
    transactions carries the prior day's value forward. -/
theorem cumulative_curve_monotone :
    ∀ md : MonthlyData,
    (∀ t ∈ md.transactions, 0 ≤ t.amount) →
    (∀ d1 d2 : Nat, 1 ≤ d1 → d1 < d2 → d2 ≤ daysInMonthOf md.month →
      ((buildCumulativeSpendCurve md).lookup d1).getD 0 ≤
        ((buildCumulativeSpendCurve md).lookup d2).getD 0)
    ∧ (∀ d : Nat, 2 ≤ d → d ≤ daysInMonthOf md.month →
        (∀ t ∈ md.transactions, dayOfDate t.date ≠ d) →
        (buildCumulativeSpendCurve md).lookup d =
          (buildCumulativeSpendCurve md).lookup (d - 1)) := by
  intro md hpos
  constructor
  · intro d1 d2 h1 h12 h2
    rw [curve_lookup md d1 h1 (by omega), curve_lookup md d2 (by omega) h2]
    simp only [Option.getD_some]
    exact round2_mono (runningTotal_mono md hpos (by omega))
  · intro d h2 hle hnone
    rw [curve_lookup md d (by omega) hle,
      curve_lookup md (d - 1) (by omega) (by omega)]
    have hds : dailySpend md d = 0 := by
      unfold dailySpend
      have hnil : md.transactions.filter
          (fun t => dayOfDate t.date == d) = [] := by
        apply List.filter_eq_nil_iff.mpr
        intro t ht
        simp [hnone t ht]
      rw [hnil]
      rfl
    have hd : d = (d - 1) + 1 := by omega
    have hrun : runningTotal md d = runningTotal md (d - 1) := by
      calc runningTotal md d = runningTotal md ((d - 1) + 1) := by rw [← hd]
      _ = runningTotal md (d - 1) + dailySpend md ((d - 1) + 1) := rfl
      _ = runningTotal md (d - 1) + dailySpend md d := by rw [← hd]
      _ = runningTotal md (d - 1) := by rw [hds, add_zero]
    rw [hrun]

/-- C5 witness: the monotonicity applied to the concrete non-negative
    February ledger at days 3 and 10, hypotheses discharged. -/
theorem cumulative_curve_monotone_witness :
    (∀ t ∈ mdCurvePos.transactions, 0 ≤ t.amount)
    ∧ ((buildCumulativeSpendCurve mdCurvePos).lookup 3).getD 0 ≤
        ((buildCumulativeSpendCurve mdCurvePos).lookup 10).getD 0 := by
  have hpos : ∀ t ∈ mdCurvePos.transactions, 0 ≤ t.amount := by decide
  exact ⟨hpos, (cumulative_curve_monotone mdCurvePos hpos).1 3 10
    (by norm_num) (by norm_num) (by decide)⟩

/-- C6: when every transaction's day-of-month lies in the ledger's calendar
    month, the final curve value is the 2-dp rounding of the ledger total,
    and equals the total exactly when every amount is a whole number of
    cents — negative amounts included (a day's net is added verbatim). -/
theorem cumulative_curve_total :
    ∀ md : MonthlyData,
    (∀ t ∈ md.transactions,
      1 ≤ dayOfDate t.date ∧ dayOfDate t.date ≤ daysInMonthOf md.month) →
    (buildCumulativeSpendCurve md).lookup (daysInMonthOf md.month) =
      some (round2 ((md.transactions.map (fun t => t.amount)).sum))
    ∧ ((∀ t ∈ md.transactions, ∃ z : ℤ, t.amount = (z : ℚ) / 100) →
      (buildCumulativeSpendCurve md).lookup (daysInMonthOf md.month) =
        some ((md.transactions.map (fun t => t.amount)).sum)) := by
  intro md hdays
  have h28 : 28 ≤ daysInMonthOf md.month := daysInMonthNum_ge _ _
  have hrt : runningTotal md (daysInMonthOf md.month) =
      (md.transactions.map (fun t => t.amount)).sum := by
    rw [runningTotal_eq_sum]
    apply sum_buckets_eq_total
    · exact List.nodup_range' 1 _
    · intro t ht
      rw [List.mem_range'_1]
      have := hdays t ht
      omega
  constructor
  · rw [curve_lookup md _ (by omega) (le_refl _), hrt]
  · intro hcents
    obtain ⟨z, hz⟩ := sum_cents md.transactions hcents
    rw [curve_lookup md _ (by omega) (le_refl _), hrt,
      round2_cents ⟨z, hz⟩]

/-- C6 witness: the exact-total form applied to the concrete February
    ledger containing a refund, hypotheses discharged. -/
theorem cumulative_curve_total_witness :
    (∀ t ∈ mdCurveNeg.transactions,
      1 ≤ dayOfDate t.date ∧ dayOfDate t.date ≤ daysInMonthOf
        mdCurveNeg.month)
    ∧ (buildCumulativeSpendCurve mdCurveNeg).lookup 28 = some 30 := by
  have hdays : ∀ t ∈ mdCurveNeg.transactions,
      1 ≤ dayOfDate t.date ∧ dayOfDate t.date ≤ daysInMonthOf
        mdCurveNeg.month := by decide
  have hcents : ∀ t ∈ mdCurveNeg.transactions,
      ∃ z : ℤ, t.amount = (z : ℚ) / 100 := by
    intro t ht
    simp only [mdCurveNeg, List.mem_cons, List.not_mem_nil, or_false] at ht
    rcases ht with h | h
    · exact ⟨5000, by rw [h]; norm_num⟩
    · exact ⟨-2000, by rw [h]; norm_num⟩
  have h := (cumulative_curve_total mdCurveNeg hdays).2 hcents
  have h28 : daysInMonthOf mdCurveNeg.month = 28 := by decide
  rw [h28] at h
  refine ⟨hdays, ?_⟩
  rw [h]
  norm_num [mdCurveNeg]

/-- C7: with a positive monthly target, the summary status is `over`
    exactly when the total exceeds the target; otherwise `watch` exactly
    when `percentUsed` exceeds `(daysElapsed / daysInMonth) * 100 + 10`;
    otherwise `on_track`.  The closed conjunct checks the spec's example:
    total 6500, target 8000, day 28 of a 31-day month is `on_track`. -/
theorem summary_status_policy :
    (∀ (md : MonthlyData) (settings : Settings)
        (curve : Option (List (Nat × ℚ))) (now : NowDate),
      0 < settings.monthly_target →
      ((computeSummaryFromMonthlyData md settings curve now).status =
          SpendingStatus.over ↔
        settings.monthly_target <
          (md.transactions.map (fun t => t.amount)).sum)
      ∧ ((md.transactions.map (fun t => t.amount)).sum ≤
            settings.monthly_target →
          ((computeSummaryFromMonthlyData md settings curve now).status =
              SpendingStatus.watch ↔
            ((md.transactions.map (fun t => t.amount)).sum /
                settings.monthly_target) * 100 >
              (((computeSummaryFromMonthlyData md settings curve
                  now).period.days_elapsed : ℚ) /
                  (daysInMonthOf md.month : ℚ)) * 100 + 10))
      ∧ ((md.transactions.map (fun t => t.amount)).sum ≤
            settings.monthly_target →
          ¬(((md.transactions.map (fun t => t.amount)).sum /
              settings.monthly_target) * 100 >
            (((computeSummaryFromMonthlyData md settings curve
                now).period.days_elapsed : ℚ) /
                (daysInMonthOf md.month : ℚ)) * 100 + 10) →
          (computeSummaryFromMonthlyData md settings curve now).status =
            SpendingStatus.on_track))
    ∧ (computeSummaryFromMonthlyData mdSum settings8000 none now28).status =
        SpendingStatus.on_track := by
  constructor
  · intro md settings curve now _
    simp only [computeSummaryFromMonthlyData, daysInMonthOf]
    by_cases hm : (now.month == monthNumOfMonthStr md.month &&
        now.year == yearOfMonthStr md.month) = true
    · simp only [if_pos hm]
      refine ⟨?_, ?_, ?_⟩
      · split_ifs with h1 h2 <;> simp [h1]
      · intro htot
        split_ifs with h1 h2
        · exact absurd h1 (not_lt.mpr htot)
        · simp [h2]
        · simp [h2]
      · intro htot hnp
        split_ifs with h1
        · exact absurd h1 (not_lt.mpr htot)
        · rfl
    · simp only [if_neg hm]
      refine ⟨?_, ?_, ?_⟩
      · split_ifs with h1 h2 <;> simp [h1]
      · intro htot
        split_ifs with h1 h2
        · exact absurd h1 (not_lt.mpr htot)
        · simp [h2]
        · simp [h2]
      · intro htot hnp
        split_ifs with h1
        · exact absurd h1 (not_lt.mpr htot)
        · rfl
  · have hcond : (now28.month == monthNumOfMonthStr mdSum.month &&
        now28.year == yearOfMonthStr mdSum.month) = true := by decide
    have hdim : daysInMonthNum (yearOfMonthStr mdSum.month)
        (monthNumOfMonthStr mdSum.month) = 31 := by decide
    have hsum : (mdSum.transactions.map (fun t => t.amount)).sum = 6500 :=
      by simp [mdSum]
    simp only [computeSummaryFromMonthlyData, hcond, hdim, hsum]
    norm_num [now28, settings8000]

/-- C7 witness: the over/status characterization applied at the concrete
    6500-of-8000 example, with the positive-target hypothesis discharged. -/
theorem summary_status_policy_witness :
    (0 : ℚ) < settings8000.monthly_target
    ∧ ((computeSummaryFromMonthlyData mdSum settings8000 none now28).status =
        SpendingStatus.over ↔
      settings8000.monthly_target <
        (mdSum.transactions.map (fun t => t.amount)).sum) := by
  have hpos : (0 : ℚ) < settings8000.monthly_target := by
    norm_num [settings8000]
  exact ⟨hpos, (summary_status_policy.1 mdSum settings8000 none now28
    hpos).1⟩

/-- C8: evaluation of the two percentage expressions of
    `computeSummaryFromMonthlyData` under JavaScript number semantics.  The
    pace `percent_diff` is guarded and short-circuits to `0` for a
    non-positive expected spend, but `percent_used` divides by
    `monthly_target` unconditionally: with a target of `0` it evaluates to
    `Infinity` (or `NaN` when the total is also `0`), and with a negative
    target to a negative percentage — never to the `0` the claim requires.
    No exception is raised in either case. -/
theorem percent_used_unguarded_divide :
    percentUsedJsExpr 100 0 = JsNum.posInf
    ∧ percentUsedJsExpr 100 (-100) = JsNum.fin (-100)
    ∧ percentUsedJsExpr 0 0 = JsNum.nan
    ∧ pacePercentDiffJsExpr 7 0 = JsNum.fin 0
    ∧ pacePercentDiffJsExpr 7 (-3) = JsNum.fin 0 := by
  refine ⟨?_, ?_, ?_, ?_, ?_⟩ <;>
    norm_num [percentUsedJsExpr, pacePercentDiffJsExpr, jsDiv, jsMul]

/-- C9: `shouldAlert` holds exactly when at least one of the six gates
    holds (new transactions; status watch or over, mutually exclusive by
    the if/else; behind-pace by more than 10 percent; remaining in
    (0, 500); at most 3 days remaining; first day of month), and on the
    concrete example (3 new transactions, status `over`, remaining `-500`,
    nothing else firing) the reasons are exactly the new-transaction and
    over-budget reasons, in that order, with `shouldAlert = true`. -/
theorem alert_reasons_gates :
    (∀ (s : Summary) (n : Nat),
      checkShouldAlert s n = true ↔
        (0 < n ∨ s.status = SpendingStatus.watch ∨
          s.status = SpendingStatus.over ∨
          (s.pace.status = PaceStatus.behind ∧ 10 < s.pace.percent_diff) ∨
          (s.spending.remaining < 500 ∧ 0 < s.spending.remaining) ∨
          (s.period.days_remaining ≤ 3 ∧ 0 < s.period.days_remaining) ∨
          s.period.days_elapsed = 1))
    ∧ checkReasons exSummary 3 = ["3 new transactions", "over budget"]
    ∧ checkShouldAlert exSummary 3 = true := by
  have hgen : ∀ (s : Summary) (n : Nat),
      checkShouldAlert s n = true ↔
        (0 < n ∨ s.status = SpendingStatus.watch ∨
          s.status = SpendingStatus.over ∨
          (s.pace.status = PaceStatus.behind ∧ 10 < s.pace.percent_diff) ∨
          (s.spending.remaining < 500 ∧ 0 < s.spending.remaining) ∨
          (s.period.days_remaining ≤ 3 ∧ 0 < s.period.days_remaining) ∨
          s.period.days_elapsed = 1) := by
    intro s n
    simp only [checkShouldAlert, checkReasons]
    split_ifs <;> simp_all
  have hre : checkReasons exSummary 3 =
      ["3 new transactions", "over budget"] := by
    have h1 : newTransactionReason 3 = "3 new transactions" := by decide
    simp only [checkReasons, exSummary]
    norm_num [h1, overBudgetMsg]
    exact fun h => nomatch h
  refine ⟨hgen, hre, ?_⟩
  simp [checkShouldAlert, hre]

end SpendPulse
